import Mathlib

/-!
Verification of the OBAQ_2.0 training core against its specification.

The repository's visible source is `train.py` (the driver `main`) and
`trainer/trainer.py` (class `Trainer`, class `TrainingLog`).  The modules
`trainer/scheduler.py`, `trainer/Q_scheduler.py` and `utils/meters.py` are
referenced but their code is not part of the visible source; where their
behaviour matters it is modelled from the specification (each such
definition's doc comment says so), and where only their call placement
matters the collaborator is kept opaque (passed as a function argument).

Numbers that are floats in Python are modelled as `Int`: no claim depends
on real arithmetic, only on which fields change and when.
-/

namespace OBAQ

/-- Errors a Python run can surface.  `computeError` carries a tag so that
"the exception propagates unchanged" is expressible. -/
inductive Err
  | computeError (tag : Nat)
  | zeroDivisionError
  | typeError
  | attributeError
deriving DecidableEq, Repr

/-- Modelled from the spec: state of one Quantization Parameter
(`K`, `sensitivity`, `state`), owned by the Q-Optimizer/Q-Scheduler whose
source is not visible.  `lo`/`hi` are omitted: no claim in scope touches
the bracket itself. -/
inductive QState
  | Searching
  | Converged
  | Failed
deriving DecidableEq, Repr

structure QParamS where
  K : Int
  sensitivity : Int
  qstate : QState
deriving DecidableEq, Repr

/-- Modelled from the spec: LR Scheduler mutable state
`{epoch, batch_in_epoch, lr}` (spec section 3). -/
structure SchedS where
  lr : Int
  epoch : Nat
  batch_in_epoch : Nat
deriving DecidableEq, Repr

/-- The optimizer as seen through the scheduler: a representative parameter
gradient, and the last learning rate applied to its parameter groups. -/
structure OptS where
  grads : Int
  applied_lr : Int
deriving DecidableEq, Repr

/-- Modelled from the spec: `utils.meters.AverageMeter` keeps
`{val, avg, sum, count}` (spec section 6); `avg` is `sum/count`, so only
`val`, `sum`, `count` are stored. -/
structure Meter where
  val : Int
  sum : Int
  count : Nat
deriving DecidableEq, Repr

def Meter.reset (_ : Meter) : Meter := ⟨0, 0, 0⟩

def Meter.update (m : Meter) (v : Int) : Meter := ⟨v, m.sum + v, m.count + 1⟩

/-- Embeds `TrainingLog` (trainer.py lines 16-32): five independent meters. -/
structure TLog where
  batch_time : Meter
  data_time : Meter
  losses : Meter
  top1 : Meter
  top5 : Meter
deriving DecidableEq, Repr

/-- Embeds `TrainingLog.reset` (trainer.py lines 27-32). -/
def TLog.reset (_ : TLog) : TLog := ⟨⟨0,0,0⟩, ⟨0,0,0⟩, ⟨0,0,0⟩, ⟨0,0,0⟩, ⟨0,0,0⟩⟩

/-- The Trainer's mutable state as far as the batch loop touches it:
its LR scheduler, the optimizer behind it, the Q-Scheduler's parameter
list, the training log, and the `log_freq` field set in `__init__`. -/
structure TrainerSt where
  sched : SchedS
  opt : OptS
  qparams : List QParamS
  tlog : TLog
  log_freq : Int
  best_prec : Int
deriving DecidableEq, Repr

/-- Modelled from the spec: `Scheduler.zero_grad()` "delegates to the owned
optimizer, no local state change" (spec 4.1); the torch optimizer's
`zero_grad` clears the gradients of the parameters it owns. -/
def zero_gradOpt (o : OptS) : OptS := { o with grads := 0 }

/-- Modelled from the spec: `Scheduler.step()` "applies the current `lr` to
the optimizer's parameter groups, then advances `batch_in_epoch`"
(spec 4.1). -/
def schedStepF (s : SchedS) (o : OptS) : SchedS × OptS :=
  ({ s with batch_in_epoch := s.batch_in_epoch + 1 }, { o with applied_lr := s.lr })

/-- Modelled from the spec: `Scheduler.update_epoch()` "advances `epoch`,
resets `batch_in_epoch` to 0" (spec 4.1). -/
def SchedS.update_epoch (s : SchedS) : SchedS :=
  { s with epoch := s.epoch + 1, batch_in_epoch := 0 }

/-- Modelled from the spec: `Q_Scheduler.zero_sensitivity()` "sets every
parameter's `sensitivity` to 0 and `state` to `Searching`" (spec 4.2). -/
def QParamS.zeroSens (p : QParamS) : QParamS :=
  { p with sensitivity := 0, qstate := QState.Searching }

/-- Modelled from the spec: during a forward pass the compute collaborator
adds a delta to each tracked parameter's `sensitivity` (spec 4.2); deltas
beyond the parameter list are dropped, parameters beyond the delta list are
untouched. -/
def accumSens : List Int → List QParamS → List QParamS
  | _, [] => []
  | [], ps => ps
  | d :: ds, p :: ps => { p with sensitivity := p.sensitivity + d } :: accumSens ds ps

instance {ε α : Type} [DecidableEq ε] [DecidableEq α] : DecidableEq (Except ε α) := fun a b =>
  match a, b with
  | .error e, .error f =>
      if h : e = f then isTrue (by rw [h]) else isFalse (fun hc => h (by injection hc))
  | .ok x, .ok y =>
      if h : x = y then isTrue (by rw [h]) else isFalse (fun hc => h (by injection hc))
  | .error _, .ok _ => isFalse (fun hc => by injection hc)
  | .ok _, .error _ => isFalse (fun hc => by injection hc)

/-- One batch as delivered by the external collaborators: timing values,
the outcomes of the model forward pass, the criterion, and the backward
pass (each may raise), the sensitivity deltas the quantized forward
contributes, and the accuracy results. -/
structure Batch where
  data_time : Int
  forwardR : Except Err Int
  sensDeltas : List Int
  lossR : Except Err Int
  backwardR : Except Err Int
  prec1 : Int
  prec5 : Int
  batch_time : Int
deriving DecidableEq, Repr

/-- A batch on which no collaborator raises. -/
def Batch.Ok (bt : Batch) : Prop :=
  bt.forwardR.isOk = true ∧ bt.lossR.isOk = true ∧ bt.backwardR.isOk = true

instance (bt : Batch) : Decidable bt.Ok := by
  unfold Batch.Ok; infer_instance

/-- Observable calls `Trainer.forward` makes, in program order
(trainer.py lines 74-117).  Per-batch events carry the batch index. -/
inductive Ev
  | modelTrain
  | modelEval
  | zeroSensitivity
  | logReset
  | zeroGrad (b : Nat)
  | modelForward (b : Nat)
  | lossCompute (b : Nat)
  | backward (b : Nat)
  | schedStep (b : Nat)
  | logEmit (b : Nat)
  | updateEpoch
  | qStep
deriving DecidableEq, Repr

/-- The batch index an event belongs to, if it is a per-batch event. -/
def Ev.batchIdx : Ev → Option Nat
  | .zeroGrad b => some b
  | .modelForward b => some b
  | .lossCompute b => some b
  | .backward b => some b
  | .schedStep b => some b
  | .logEmit b => some b
  | _ => none

/-- Tail of one loop iteration (trainer.py lines 101-111): accuracy,
meter updates, then the periodic log guarded by `batch % self.log_freq`.
Python raises `ZeroDivisionError` when `log_freq` is 0; for a non-zero
divisor Python's `%` is floored modulo, i.e. `Int.fmod`. -/
def finishBatch (st : TrainerSt) (b : Nat) (bt : Batch) (l : Int) (evs : List Ev) :
    TrainerSt × List Ev × Option Err :=
  let tl := st.tlog
  let tl := { tl with batch_time := tl.batch_time.update bt.batch_time,
                      losses := tl.losses.update l,
                      top1 := tl.top1.update bt.prec1,
                      top5 := tl.top5.update bt.prec5 }
  let st := { st with tlog := tl }
  if st.log_freq = 0 then (st, evs, some Err.zeroDivisionError)
  else if Int.fmod (Int.ofNat b) st.log_freq = 0 then (st, evs ++ [Ev.logEmit b], none)
  else (st, evs, none)

/-- One iteration of the batch loop (trainer.py lines 85-111): data-time
meter, `scheduler.zero_grad()`, model forward (the quantized forward also
accumulates sensitivity), criterion, and — only when training — backward
followed by `scheduler.step()`; then `finishBatch`.  A raising collaborator
stops the iteration and surfaces its error. -/
def runBatch (train : Bool) (st0 : TrainerSt) (b : Nat) (bt : Batch) :
    TrainerSt × List Ev × Option Err :=
  let st1 := { st0 with tlog := { st0.tlog with data_time := st0.tlog.data_time.update bt.data_time },
                        opt := zero_gradOpt st0.opt }
  match bt.forwardR with
  | .error e => (st1, [Ev.zeroGrad b], some e)
  | .ok _ =>
    let st2 := { st1 with qparams := accumSens bt.sensDeltas st1.qparams }
    match bt.lossR with
    | .error e => (st2, [Ev.zeroGrad b, Ev.modelForward b], some e)
    | .ok l =>
      if train then
        match bt.backwardR with
        | .error e => (st2, [Ev.zeroGrad b, Ev.modelForward b, Ev.lossCompute b], some e)
        | .ok g =>
          let st3 := { st2 with opt := { st2.opt with grads := g } }
          let so := schedStepF st3.sched st3.opt
          let st4 := { st3 with sched := so.1, opt := so.2 }
          finishBatch st4 b bt l
            [Ev.zeroGrad b, Ev.modelForward b, Ev.lossCompute b, Ev.backward b, Ev.schedStep b]
      else
        finishBatch st2 b bt l [Ev.zeroGrad b, Ev.modelForward b, Ev.lossCompute b]

/-- The batch loop: iterate `runBatch` over the data source, short-circuit
on the first raised error (trainer.py has no handler in the loop). -/
def runBatches (train : Bool) : TrainerSt → Nat → List Batch → TrainerSt × List Ev × Option Err
  | st, _, [] => (st, [], none)
  | st, b, bt :: rest =>
    let r1 := runBatch train st b bt
    match r1.2.2 with
    | some e => (r1.1, r1.2.1, some e)
    | none =>
      let r2 := runBatches train r1.1 (b + 1) rest
      (r2.1, r1.2.1 ++ r2.2.1, r2.2.2)

namespace Trainer

/-- Embeds `Trainer.forward` (trainer.py lines 74-117).  `qstepF` is
`Q_Scheduler.step()`'s per-parameter action, an opaque collaborator (its
module is not part of the visible source); the data source is the list of
batches.  Returns the final trainer state, the event trace, and the error
raised, if any. -/
def forward (train : Bool) (qstepF : QParamS → QParamS) (st0 : TrainerSt)
    (batches : List Batch) : TrainerSt × List Ev × Option Err :=
  if train then
    let r := runBatches true
      { st0 with qparams := st0.qparams.map QParamS.zeroSens, tlog := st0.tlog.reset }
      0 batches
    match r.2.2 with
    | some e => (r.1, Ev.modelTrain :: Ev.zeroSensitivity :: Ev.logReset :: r.2.1, some e)
    | none =>
      ({ r.1 with sched := r.1.sched.update_epoch, qparams := r.1.qparams.map qstepF },
       Ev.modelTrain :: Ev.zeroSensitivity :: Ev.logReset ::
         (r.2.1 ++ [Ev.updateEpoch, Ev.qStep]), none)
  else
    let r := runBatches false { st0 with tlog := st0.tlog.reset } 0 batches
    (r.1, Ev.modelEval :: Ev.logReset :: r.2.1, r.2.2)

/-- Embeds `Trainer.train` (trainer.py lines 68-69): `forward` with the training
data source and `train=True`. -/
def train (qstepF : QParamS → QParamS) (st : TrainerSt) (train_batches : List Batch) :
    TrainerSt × List Ev × Option Err :=
  forward true qstepF st train_batches

/-- Embeds `Trainer.test` (trainer.py lines 71-72): `forward` with the test data
source and `train=False`. -/
def test (qstepF : QParamS → QParamS) (st : TrainerSt) (test_batches : List Batch) :
    TrainerSt × List Ev × Option Err :=
  forward false qstepF st test_batches

end Trainer

/-! ### Helper lemmas about one loop iteration -/

theorem runBatch_idx (train : Bool) (st : TrainerSt) (b : Nat) (bt : Batch) :
    ∀ ev ∈ (runBatch train st b bt).2.1, ev.batchIdx = some b := by
  unfold runBatch finishBatch
  rcases hf : bt.forwardR with e | x <;> rcases hl : bt.lossR with e | l <;>
    cases train <;> rcases hb : bt.backwardR with e | g <;>
    simp only [hf, hl, hb, Bool.false_eq_true, if_false, if_true] <;>
    (repeat' split) <;> simp_all [Ev.batchIdx]

theorem runBatch_log_freq (train : Bool) (st : TrainerSt) (b : Nat) (bt : Batch) :
    (runBatch train st b bt).1.log_freq = st.log_freq := by
  unfold runBatch finishBatch
  rcases hf : bt.forwardR with e | x <;> rcases hl : bt.lossR with e | l <;>
    cases train <;> rcases hb : bt.backwardR with e | g <;>
    simp only [hf, hl, hb, Bool.false_eq_true, if_false, if_true] <;>
    (repeat' split) <;> rfl

theorem runBatch_ok_err (train : Bool) (st : TrainerSt) (b : Nat) (bt : Batch)
    (hok : bt.Ok) (hlf : st.log_freq ≠ 0) :
    (runBatch train st b bt).2.2 = none := by
  obtain ⟨h1, h2, h3⟩ := hok
  unfold runBatch finishBatch
  rcases hf : bt.forwardR with e | x <;> rcases hl : bt.lossR with e | l <;>
    cases train <;> rcases hb : bt.backwardR with e | g <;>
    simp_all [Except.isOk, Except.toBool] <;> (repeat' split) <;> rfl

/-- The first error raised inside one loop iteration, if any: model forward,
then criterion, then (in training) backward, then the `log_freq` division. -/
def Batch.firstErr (train : Bool) (lf : Int) (bt : Batch) : Option Err :=
  match bt.forwardR with
  | .error e => some e
  | .ok _ =>
    match bt.lossR with
    | .error e => some e
    | .ok _ =>
      match (if train then bt.backwardR else .ok 0) with
      | .error e => some e
      | .ok _ => if lf = 0 then some Err.zeroDivisionError else none

theorem runBatch_err (train : Bool) (st : TrainerSt) (b : Nat) (bt : Batch) :
    (runBatch train st b bt).2.2 = bt.firstErr train st.log_freq := by
  unfold runBatch finishBatch Batch.firstErr
  rcases hf : bt.forwardR with e | x <;> rcases hl : bt.lossR with e | l <;>
    cases train <;> rcases hb : bt.backwardR with e | g <;>
    simp only [hf, hl, hb, Bool.false_eq_true, if_false, if_true] <;>
    (repeat' split) <;> simp_all

theorem runBatch_train_trace (st : TrainerSt) (b : Nat) (bt : Batch)
    (hok : bt.Ok) :
    ∃ tail, (runBatch true st b bt).2.1 =
      [Ev.zeroGrad b, Ev.modelForward b, Ev.lossCompute b, Ev.backward b, Ev.schedStep b] ++ tail
      ∧ (tail = [] ∨ tail = [Ev.logEmit b]) := by
  obtain ⟨h1, h2, h3⟩ := hok
  unfold runBatch finishBatch
  rcases hf : bt.forwardR with e | x <;> rcases hl : bt.lossR with e | l <;>
    rcases hb : bt.backwardR with e | g <;>
    simp_all [Except.isOk, Except.toBool] <;> (repeat' split) <;> simp

theorem accumSens_K_qstate (ds : List Int) (ps : List QParamS) :
    (accumSens ds ps).map (fun p => (p.K, p.qstate)) =
      ps.map (fun p => (p.K, p.qstate)) := by
  induction ps generalizing ds with
  | nil => cases ds <;> rfl
  | cons p ps ih =>
    cases ds with
    | nil => rfl
    | cons d ds => simp [accumSens, ih]

theorem runBatch_eval_sched (st : TrainerSt) (b : Nat) (bt : Batch) :
    (runBatch false st b bt).1.sched = st.sched := by
  unfold runBatch finishBatch
  rcases hf : bt.forwardR with e | x <;> rcases hl : bt.lossR with e | l <;>
    simp only [hf, hl, Bool.false_eq_true, if_false] <;>
    (repeat' split) <;> rfl

theorem runBatch_eval_qparams (st : TrainerSt) (b : Nat) (bt : Batch) :
    ((runBatch false st b bt).1.qparams).map (fun p => (p.K, p.qstate)) =
      st.qparams.map (fun p => (p.K, p.qstate)) := by
  unfold runBatch finishBatch
  rcases hf : bt.forwardR with e | x <;> rcases hl : bt.lossR with e | l <;>
    simp only [hf, hl, Bool.false_eq_true, if_false] <;>
    (repeat' split) <;> simp [accumSens_K_qstate]

theorem runBatch_eval_evs (st : TrainerSt) (b : Nat) (bt : Batch) :
    ∀ ev ∈ (runBatch false st b bt).2.1,
      ev = Ev.zeroGrad b ∨ ev = Ev.modelForward b ∨ ev = Ev.lossCompute b ∨
        ev = Ev.logEmit b := by
  unfold runBatch finishBatch
  rcases hf : bt.forwardR with e | x <;> rcases hl : bt.lossR with e | l <;>
    simp only [hf, hl, Bool.false_eq_true, if_false] <;>
    (repeat' split) <;> simp_all

/-! ### Helper lemmas about the whole batch loop -/

theorem runBatches_idx (train : Bool) :
    ∀ (bts : List Batch) (st : TrainerSt) (b0 : Nat),
      ∀ ev ∈ (runBatches train st b0 bts).2.1,
        ∃ i, ev.batchIdx = some i ∧ b0 ≤ i ∧ i < b0 + bts.length := by
  intro bts
  induction bts with
  | nil => intro st b0 ev h; simp [runBatches] at h
  | cons bt rest ih =>
    intro st b0 ev h
    unfold runBatches at h
    rcases herr : (runBatch train st b0 bt).2.2 with _ | e
    · simp only [herr] at h
      rcases List.mem_append.mp h with h1 | h2
      · exact ⟨b0, runBatch_idx train st b0 bt ev h1, le_refl _, by simp⟩
      · obtain ⟨i, hi, hle, hlt⟩ := ih (runBatch train st b0 bt).1 (b0 + 1) ev h2
        exact ⟨i, hi, by omega, by simp [List.length_cons]; omega⟩
    · simp only [herr] at h
      exact ⟨b0, runBatch_idx train st b0 bt ev h, le_refl _, by simp⟩

theorem runBatches_log_freq (train : Bool) :
    ∀ (bts : List Batch) (st : TrainerSt) (b0 : Nat),
      (runBatches train st b0 bts).1.log_freq = st.log_freq := by
  intro bts
  induction bts with
  | nil => intro st b0; rfl
  | cons bt rest ih =>
    intro st b0
    unfold runBatches
    rcases herr : (runBatch train st b0 bt).2.2 with _ | e
    · simp only [herr]
      rw [ih (runBatch train st b0 bt).1 (b0 + 1), runBatch_log_freq]
    · simp only [herr]
      exact runBatch_log_freq train st b0 bt

theorem runBatches_ok_err (train : Bool) :
    ∀ (bts : List Batch) (st : TrainerSt) (b0 : Nat),
      (∀ bt ∈ bts, bt.Ok) → st.log_freq ≠ 0 →
      (runBatches train st b0 bts).2.2 = none := by
  intro bts
  induction bts with
  | nil => intro st b0 _ _; rfl
  | cons bt rest ih =>
    intro st b0 hok hlf
    unfold runBatches
    rcases herr : (runBatch train st b0 bt).2.2 with _ | e
    · simp only [herr]
      refine ih (runBatch train st b0 bt).1 (b0 + 1) (fun b hb => hok b (by simp [hb])) ?_
      rw [runBatch_log_freq]; exact hlf
    · rw [runBatch_ok_err train st b0 bt (hok bt (by simp)) hlf] at herr
      exact absurd herr (by simp)

theorem runBatches_eval_sched :
    ∀ (bts : List Batch) (st : TrainerSt) (b0 : Nat),
      (runBatches false st b0 bts).1.sched = st.sched := by
  intro bts
  induction bts with
  | nil => intro st b0; rfl
  | cons bt rest ih =>
    intro st b0
    unfold runBatches
    rcases herr : (runBatch false st b0 bt).2.2 with _ | e
    · simp only [herr]
      rw [ih (runBatch false st b0 bt).1 (b0 + 1), runBatch_eval_sched]
    · simp only [herr]
      exact runBatch_eval_sched st b0 bt

theorem runBatches_eval_qparams :
    ∀ (bts : List Batch) (st : TrainerSt) (b0 : Nat),
      ((runBatches false st b0 bts).1.qparams).map (fun p => (p.K, p.qstate)) =
        st.qparams.map (fun p => (p.K, p.qstate)) := by
  intro bts
  induction bts with
  | nil => intro st b0; rfl
  | cons bt rest ih =>
    intro st b0
    unfold runBatches
    rcases herr : (runBatch false st b0 bt).2.2 with _ | e
    · simp only [herr]
      rw [ih (runBatch false st b0 bt).1 (b0 + 1), runBatch_eval_qparams]
    · simp only [herr]
      exact runBatch_eval_qparams st b0 bt

theorem runBatches_eval_evs :
    ∀ (bts : List Batch) (st : TrainerSt) (b0 : Nat),
      ∀ ev ∈ (runBatches false st b0 bts).2.1,
        ∃ b, ev = Ev.zeroGrad b ∨ ev = Ev.modelForward b ∨ ev = Ev.lossCompute b ∨
          ev = Ev.logEmit b := by
  intro bts
  induction bts with
  | nil => intro st b0 ev h; simp [runBatches] at h
  | cons bt rest ih =>
    intro st b0 ev h
    unfold runBatches at h
    rcases herr : (runBatch false st b0 bt).2.2 with _ | e
    · simp only [herr] at h
      rcases List.mem_append.mp h with h1 | h2
      · exact ⟨b0, runBatch_eval_evs st b0 bt ev h1⟩
      · exact ih (runBatch false st b0 bt).1 (b0 + 1) ev h2
    · simp only [herr] at h
      exact ⟨b0, runBatch_eval_evs st b0 bt ev h⟩

/-- The events of batch `b` that C6 is about: the backward pass and the
scheduler step. -/
def stepPair (b : Nat) : Ev → Bool
  | .backward b' => b' == b
  | .schedStep b' => b' == b
  | _ => false

theorem stepPair_idx {b : Nat} {e : Ev} (h : stepPair b e = true) :
    e.batchIdx = some b := by
  cases e <;> simp [stepPair] at h <;> simp [Ev.batchIdx, h]

theorem runBatches_filter_stepPair (hb : Nat) :
    ∀ (bts : List Batch) (st : TrainerSt) (b0 : Nat),
      (∀ bt ∈ bts, bt.Ok) → st.log_freq ≠ 0 →
      b0 ≤ hb → hb < b0 + bts.length →
      ((runBatches true st b0 bts).2.1).filter (stepPair hb) =
        [Ev.backward hb, Ev.schedStep hb] := by
  intro bts
  induction bts with
  | nil => intro st b0 _ _ hle hlt; simp at hlt; omega
  | cons bt rest ih =>
    intro st b0 hok hlf hle hlt
    unfold runBatches
    rcases herr : (runBatch true st b0 bt).2.2 with _ | e
    case cons.some =>
      rw [runBatch_ok_err true st b0 bt (hok bt (by simp)) hlf] at herr
      exact absurd herr (by simp)
    simp only [herr, List.filter_append]
    by_cases hcase : hb = b0
    · subst hcase
      have hrest : ((runBatches true (runBatch true st hb bt).1 (hb + 1) rest).2.1).filter
          (stepPair hb) = [] := by
        refine List.filter_eq_nil_iff.mpr (fun ev hev hsp => ?_)
        obtain ⟨i, hi, hile, hilt⟩ :=
          runBatches_idx true rest (runBatch true st hb bt).1 (hb + 1) ev hev
        rw [stepPair_idx hsp] at hi
        have hieq : hb = i := by injection hi
        omega
      rw [hrest]
      obtain ⟨tail, htr, htail⟩ := runBatch_train_trace st hb bt (hok bt (by simp))
      rw [htr, List.filter_append]
      rcases htail with ht | ht <;> subst ht <;>
        simp [stepPair, List.filter]
    · have hhead : ((runBatch true st b0 bt).2.1).filter (stepPair hb) = [] := by
        refine List.filter_eq_nil_iff.mpr (fun ev hev hsp => ?_)
        have := runBatch_idx true st b0 bt ev hev
        rw [stepPair_idx hsp] at this
        exact hcase (by injection this)
      rw [hhead, List.nil_append]
      refine ih (runBatch true st b0 bt).1 (b0 + 1)
        (fun b hbm => hok b (by simp [hbm])) ?_ (by omega) ?_
      · rw [runBatch_log_freq]; exact hlf
      · simp only [List.length_cons] at hlt; omega

theorem runBatches_no_updateEpoch (train : Bool) (bts : List Batch) (st : TrainerSt)
    (b0 : Nat) : Ev.updateEpoch ∉ (runBatches train st b0 bts).2.1 := by
  intro h
  obtain ⟨i, hi, -, -⟩ := runBatches_idx train bts st b0 _ h
  simp [Ev.batchIdx] at hi

theorem runBatches_no_qStep (train : Bool) (bts : List Batch) (st : TrainerSt)
    (b0 : Nat) : Ev.qStep ∉ (runBatches train st b0 bts).2.1 := by
  intro h
  obtain ⟨i, hi, -, -⟩ := runBatches_idx train bts st b0 _ h
  simp [Ev.batchIdx] at hi

theorem runBatches_no_zeroSens (train : Bool) (bts : List Batch) (st : TrainerSt)
    (b0 : Nat) : Ev.zeroSensitivity ∉ (runBatches train st b0 bts).2.1 := by
  intro h
  obtain ⟨i, hi, -, -⟩ := runBatches_idx train bts st b0 _ h
  simp [Ev.batchIdx] at hi

/-! ### Claim C1 -/

/-- C1: In every training pass (`Trainer.train`, i.e. `forward` with
`train=True`), after the last batch of the epoch the Trainer calls
`scheduler.update_epoch()` and then `q_scheduler.step()`, in that order,
exactly once each per completed training epoch (the trace ends with the
pair `[updateEpoch, qStep]` and neither occurs earlier); in every
evaluation pass (`forward` with `train=False`) neither call is made. -/
theorem C1_update_epoch_then_qstep (qstepF : QParamS → QParamS) (st : TrainerSt)
    (train_batches : List Batch)
    (hok : ∀ bt ∈ train_batches, bt.Ok) (hlf : st.log_freq ≠ 0) :
    ((Trainer.train qstepF st train_batches).2.2 = none ∧
      (∃ pre, (Trainer.train qstepF st train_batches).2.1 =
          pre ++ [Ev.updateEpoch, Ev.qStep] ∧
        Ev.updateEpoch ∉ pre ∧ Ev.qStep ∉ pre) ∧
      ((Trainer.train qstepF st train_batches).2.1).count Ev.updateEpoch = 1 ∧
      ((Trainer.train qstepF st train_batches).2.1).count Ev.qStep = 1) ∧
    (∀ (qstepG : QParamS → QParamS) (st' : TrainerSt) (test_batches : List Batch),
      Ev.updateEpoch ∉ (Trainer.test qstepG st' test_batches).2.1 ∧
      Ev.qStep ∉ (Trainer.test qstepG st' test_batches).2.1) := by
  constructor
  · have herr : (runBatches true
        { st with qparams := st.qparams.map QParamS.zeroSens, tlog := st.tlog.reset }
        0 train_batches).2.2 = none :=
      runBatches_ok_err true train_batches _ 0 hok hlf
    have hu := runBatches_no_updateEpoch true train_batches
      { st with qparams := st.qparams.map QParamS.zeroSens, tlog := st.tlog.reset } 0
    have hq := runBatches_no_qStep true train_batches
      { st with qparams := st.qparams.map QParamS.zeroSens, tlog := st.tlog.reset } 0
    unfold Trainer.train Trainer.forward
    simp only [if_true, herr]
    refine ⟨by trivial, ⟨Ev.modelTrain :: Ev.zeroSensitivity :: Ev.logReset ::
      (runBatches true
        { st with qparams := st.qparams.map QParamS.zeroSens, tlog := st.tlog.reset }
        0 train_batches).2.1, by simp, ?_, ?_⟩, ?_, ?_⟩
    · simp only [List.mem_cons, not_or]
      exact ⟨by simp, by simp, by simp, hu⟩
    · simp only [List.mem_cons, not_or]
      exact ⟨by simp, by simp, by simp, hq⟩
    · simp [List.count_cons, List.count_append,
        List.count_eq_zero.mpr hu]
    · simp [List.count_cons, List.count_append,
        List.count_eq_zero.mpr hq]
  · intro qstepG st' test_batches
    have hu := runBatches_no_updateEpoch false test_batches
      { st' with tlog := st'.tlog.reset } 0
    have hq := runBatches_no_qStep false test_batches
      { st' with tlog := st'.tlog.reset } 0
    unfold Trainer.test Trainer.forward
    simp only [Bool.false_eq_true, if_false]
    constructor <;> simp only [List.mem_cons, not_or] <;>
      exact ⟨by simp, by simp, by assumption⟩

/-- Witness for C1: a one-batch training pass at a concrete state. -/
theorem C1_update_epoch_then_qstep_witness :
    (Trainer.train id ⟨⟨1, 0, 0⟩, ⟨0, 0⟩, [], ⟨⟨0,0,0⟩, ⟨0,0,0⟩, ⟨0,0,0⟩, ⟨0,0,0⟩, ⟨0,0,0⟩⟩, 10, 0⟩
        [⟨1, .ok 0, [], .ok 2, .ok 3, 4, 5, 6⟩]).2.2 = none ∧
    ((Trainer.train id ⟨⟨1, 0, 0⟩, ⟨0, 0⟩, [], ⟨⟨0,0,0⟩, ⟨0,0,0⟩, ⟨0,0,0⟩, ⟨0,0,0⟩, ⟨0,0,0⟩⟩, 10, 0⟩
        [⟨1, .ok 0, [], .ok 2, .ok 3, 4, 5, 6⟩]).2.1).count Ev.updateEpoch = 1 ∧
    ((Trainer.train id ⟨⟨1, 0, 0⟩, ⟨0, 0⟩, [], ⟨⟨0,0,0⟩, ⟨0,0,0⟩, ⟨0,0,0⟩, ⟨0,0,0⟩, ⟨0,0,0⟩⟩, 10, 0⟩
        [⟨1, .ok 0, [], .ok 2, .ok 3, 4, 5, 6⟩]).2.1).count Ev.qStep = 1 :=
  have h := C1_update_epoch_then_qstep id
    ⟨⟨1, 0, 0⟩, ⟨0, 0⟩, [], ⟨⟨0,0,0⟩, ⟨0,0,0⟩, ⟨0,0,0⟩, ⟨0,0,0⟩, ⟨0,0,0⟩⟩, 10, 0⟩
    [⟨1, .ok 0, [], .ok 2, .ok 3, 4, 5, 6⟩]
    (by intro bt hbt; simp at hbt; subst hbt; exact ⟨rfl, rfl, rfl⟩) (by decide)
  ⟨h.1.1, h.1.2.2.1, h.1.2.2.2⟩

/-! ### Claim C5 -/

/-- C5: `q_scheduler.zero_sensitivity()` is called exactly once at the
start of every training epoch, before the first batch is processed (it is
the second event of the trace, before any per-batch event, and never
recurs), is never called during an evaluation pass, and resets every
tracked parameter's sensitivity to exactly 0 regardless of prior value. -/
theorem C5_zero_sensitivity_reset :
    (∀ (qstepF : QParamS → QParamS) (st : TrainerSt) (batches : List Batch),
      ∃ rest, (Trainer.train qstepF st batches).2.1 =
          Ev.modelTrain :: Ev.zeroSensitivity :: Ev.logReset :: rest ∧
        Ev.zeroSensitivity ∉ rest) ∧
    (∀ (qstepF : QParamS → QParamS) (st : TrainerSt) (batches : List Batch),
      Ev.zeroSensitivity ∉ (Trainer.test qstepF st batches).2.1) ∧
    (∀ p : QParamS, (QParamS.zeroSens p).sensitivity = 0 ∧
      (QParamS.zeroSens p).qstate = QState.Searching) ∧
    (∀ st : TrainerSt, ∀ p ∈ st.qparams.map QParamS.zeroSens, p.sensitivity = 0) := by
  refine ⟨?_, ?_, fun p => ⟨rfl, rfl⟩, ?_⟩
  · intro qstepF st batches
    have hz := runBatches_no_zeroSens true batches
      { st with qparams := st.qparams.map QParamS.zeroSens, tlog := st.tlog.reset } 0
    unfold Trainer.train Trainer.forward
    simp only [if_true]
    rcases herr : (runBatches true
        { st with qparams := st.qparams.map QParamS.zeroSens, tlog := st.tlog.reset }
        0 batches).2.2 with _ | e
    · simp only [herr]
      refine ⟨_, rfl, ?_⟩
      simp only [List.mem_append, List.mem_cons, not_or]
      exact ⟨hz, by simp, by simp, by simp⟩
    · simp only [herr]
      exact ⟨_, rfl, hz⟩
  · intro qstepF st batches
    have hz := runBatches_no_zeroSens false batches { st with tlog := st.tlog.reset } 0
    unfold Trainer.test Trainer.forward
    simp only [Bool.false_eq_true, if_false, List.mem_cons, not_or]
    exact ⟨by simp, by simp, hz⟩
  · intro st p hp
    obtain ⟨q, -, hq⟩ := List.mem_map.mp hp
    rw [← hq]
    rfl

/-! ### Claim C6 -/

/-- C6: In a training pass, `scheduler.step()` is called exactly once
per batch and only after `loss.backward()` has completed for that batch
(restricting the trace to batch `b`'s backward and scheduler-step events
yields exactly `[backward b, schedStep b]`); during an evaluation pass
`scheduler.step()` is never called. -/
theorem C6_sched_step_per_batch (qstepF : QParamS → QParamS) (st : TrainerSt)
    (train_batches : List Batch)
    (hok : ∀ bt ∈ train_batches, bt.Ok) (hlf : st.log_freq ≠ 0) :
    (∀ b < train_batches.length,
      ((Trainer.train qstepF st train_batches).2.1).filter (stepPair b) =
        [Ev.backward b, Ev.schedStep b]) ∧
    (∀ (qstepG : QParamS → QParamS) (st' : TrainerSt) (test_batches : List Batch)
      (b : Nat), Ev.schedStep b ∉ (Trainer.test qstepG st' test_batches).2.1) := by
  constructor
  · intro b hb
    have herr : (runBatches true
        { st with qparams := st.qparams.map QParamS.zeroSens, tlog := st.tlog.reset }
        0 train_batches).2.2 = none :=
      runBatches_ok_err true train_batches _ 0 hok hlf
    have hfil := runBatches_filter_stepPair b train_batches
      { st with qparams := st.qparams.map QParamS.zeroSens, tlog := st.tlog.reset }
      0 hok hlf (Nat.zero_le b) (by omega)
    unfold Trainer.train Trainer.forward
    simp only [if_true, herr]
    simp [List.filter_append, hfil, stepPair]
  · intro qstepG st' test_batches b
    unfold Trainer.test Trainer.forward
    simp only [Bool.false_eq_true, if_false, List.mem_cons, not_or]
    refine ⟨by simp, by simp, fun h => ?_⟩
    obtain ⟨b', hb'⟩ := runBatches_eval_evs test_batches
      { st' with tlog := st'.tlog.reset } 0 _ h
    rcases hb' with h1 | h1 | h1 | h1 <;> exact absurd h1 (by simp)

/-- Witness for C6: a one-batch training pass at a concrete state. -/
theorem C6_sched_step_per_batch_witness :
    ((Trainer.train id ⟨⟨1, 0, 0⟩, ⟨0, 0⟩, [], ⟨⟨0,0,0⟩, ⟨0,0,0⟩, ⟨0,0,0⟩, ⟨0,0,0⟩, ⟨0,0,0⟩⟩, 10, 0⟩
        [⟨1, .ok 0, [], .ok 2, .ok 3, 4, 5, 6⟩]).2.1).filter (stepPair 0) =
      [Ev.backward 0, Ev.schedStep 0] :=
  (C6_sched_step_per_batch id
    ⟨⟨1, 0, 0⟩, ⟨0, 0⟩, [], ⟨⟨0,0,0⟩, ⟨0,0,0⟩, ⟨0,0,0⟩, ⟨0,0,0⟩, ⟨0,0,0⟩⟩, 10, 0⟩
    [⟨1, .ok 0, [], .ok 2, .ok 3, 4, 5, 6⟩]
    (by intro bt hbt; simp at hbt; subst hbt; exact ⟨rfl, rfl, rfl⟩)
    (by decide)).1 0 (by decide)

/-! ### Claim C2 -/

/-- C2 counterexample: As stated, C2 also asserts that `test(epoch)`
performs "no optimizer or scheduler mutation of any kind"; but
`Trainer.forward` calls `self.scheduler.zero_grad()` on every batch also
when `train=False` (trainer.py line 90), which clears the optimizer's
parameter gradients.  Concretely: a trainer whose optimizer holds gradient
5 comes out of a one-batch test pass with gradient 0. -/
theorem C2_test_zero_grad_clears_grads :
    (Trainer.test id
        ⟨⟨1, 0, 0⟩, ⟨5, 0⟩, [], ⟨⟨0,0,0⟩, ⟨0,0,0⟩, ⟨0,0,0⟩, ⟨0,0,0⟩, ⟨0,0,0⟩⟩, 10, 0⟩
        [⟨1, .ok 0, [], .ok 2, .ok 3, 4, 5, 6⟩]).1.opt.grads = 0 ∧
    (⟨⟨1, 0, 0⟩, ⟨5, 0⟩, [], ⟨⟨0,0,0⟩, ⟨0,0,0⟩, ⟨0,0,0⟩, ⟨0,0,0⟩, ⟨0,0,0⟩⟩, 10, 0⟩ :
      TrainerSt).opt.grads = 5 := by
  decide

/-- C2 (amended): For every epoch, `Trainer.test(epoch)` leaves the
learning rate `lr` (the whole LR-scheduler state), every quantization
parameter's `K`, and every parameter's `state` unchanged, and performs no
gradient step and no scheduler mutation: no backward, scheduler-step,
update-epoch or Q-scheduler-step call occurs.  It does, however, call
`scheduler.zero_grad()` on every batch, which clears the optimizer's
parameter gradients. -/
theorem C2_test_preserves_lr_K_state (qstepF : QParamS → QParamS) (st : TrainerSt)
    (test_batches : List Batch) :
    (Trainer.test qstepF st test_batches).1.sched = st.sched ∧
    ((Trainer.test qstepF st test_batches).1.qparams).map (fun p => (p.K, p.qstate)) =
      st.qparams.map (fun p => (p.K, p.qstate)) ∧
    (∀ b : Nat, Ev.backward b ∉ (Trainer.test qstepF st test_batches).2.1 ∧
      Ev.schedStep b ∉ (Trainer.test qstepF st test_batches).2.1) ∧
    Ev.updateEpoch ∉ (Trainer.test qstepF st test_batches).2.1 ∧
    Ev.qStep ∉ (Trainer.test qstepF st test_batches).2.1 := by
  unfold Trainer.test Trainer.forward
  simp only [Bool.false_eq_true, if_false]
  refine ⟨runBatches_eval_sched test_batches { st with tlog := st.tlog.reset } 0,
    runBatches_eval_qparams test_batches { st with tlog := st.tlog.reset } 0,
    fun b => ⟨?_, ?_⟩, ?_, ?_⟩ <;>
    simp only [List.mem_cons, not_or] <;>
    refine ⟨by simp, by simp, fun h => ?_⟩
  · obtain ⟨b', hb'⟩ := runBatches_eval_evs test_batches
      { st with tlog := st.tlog.reset } 0 _ h
    rcases hb' with h1 | h1 | h1 | h1 <;> exact absurd h1 (by simp)
  · obtain ⟨b', hb'⟩ := runBatches_eval_evs test_batches
      { st with tlog := st.tlog.reset } 0 _ h
    rcases hb' with h1 | h1 | h1 | h1 <;> exact absurd h1 (by simp)
  · exact runBatches_no_updateEpoch false test_batches { st with tlog := st.tlog.reset } 0 h
  · exact runBatches_no_qStep false test_batches { st with tlog := st.tlog.reset } 0 h

/-! ### Claim C9 -/

theorem runBatches_first_err (train : Bool) :
    ∀ (pre : List Batch) (bad : Batch) (post : List Batch) (st : TrainerSt)
      (b0 : Nat) (e : Err),
      (∀ bt ∈ pre, bt.Ok) → st.log_freq ≠ 0 →
      bad.firstErr train st.log_freq = some e →
      (runBatches train st b0 (pre ++ bad :: post)).2.2 = some e ∧
      ∀ ev ∈ (runBatches train st b0 (pre ++ bad :: post)).2.1,
        ∃ i, ev.batchIdx = some i ∧ i ≤ b0 + pre.length := by
  intro pre
  induction pre with
  | nil =>
    intro bad post st b0 e _ _ hbad
    have herr : (runBatch train st b0 bad).2.2 = some e := by
      rw [runBatch_err]; exact hbad
    unfold runBatches
    simp only [List.nil_append, herr]
    exact ⟨by trivial, fun ev hev => ⟨b0, runBatch_idx train st b0 bad ev hev, by omega⟩⟩
  | cons bt rest ih =>
    intro bad post st b0 e hok hlf hbad
    have herr : (runBatch train st b0 bt).2.2 = none :=
      runBatch_ok_err train st b0 bt (hok bt (by simp)) hlf
    have hlf1 : (runBatch train st b0 bt).1.log_freq ≠ 0 := by
      rw [runBatch_log_freq]; exact hlf
    have hbad1 : bad.firstErr train (runBatch train st b0 bt).1.log_freq = some e := by
      rw [runBatch_log_freq]; exact hbad
    obtain ⟨ihe, ihm⟩ := ih bad post (runBatch train st b0 bt).1 (b0 + 1) e
      (fun b hb => hok b (by simp [hb])) hlf1 hbad1
    unfold runBatches
    simp only [List.cons_append, herr]
    refine ⟨ihe, fun ev hev => ?_⟩
    rcases List.mem_append.mp hev with h1 | h2
    · exact ⟨b0, runBatch_idx train st b0 bt ev h1, by omega⟩
    · obtain ⟨i, hi, hile⟩ := ihm ev h2
      exact ⟨i, hi, by simp only [List.length_cons]; omega⟩

/-- C9: Any exception raised inside the batch loop (by the model
forward, the criterion, or the backward pass) propagates out of
`train()`/`test()` unchanged: the pass stops at the failing batch (no
event of a later batch appears, so no batch is skipped or retried), the
epoch-end scheduler calls are not reached, and the error surfaces
unmodified. -/
theorem C9_exception_propagates (train : Bool) (qstepF : QParamS → QParamS)
    (st : TrainerSt) (pre : List Batch) (bad : Batch) (post : List Batch) (e : Err)
    (hok : ∀ bt ∈ pre, bt.Ok) (hlf : st.log_freq ≠ 0)
    (hbad : bad.firstErr train st.log_freq = some e) :
    (Trainer.forward train qstepF st (pre ++ bad :: post)).2.2 = some e ∧
    (∀ ev ∈ (Trainer.forward train qstepF st (pre ++ bad :: post)).2.1,
      ∀ i, ev.batchIdx = some i → i ≤ pre.length) ∧
    Ev.updateEpoch ∉ (Trainer.forward train qstepF st (pre ++ bad :: post)).2.1 ∧
    Ev.qStep ∉ (Trainer.forward train qstepF st (pre ++ bad :: post)).2.1 := by
  cases train
  · obtain ⟨he, hm⟩ := runBatches_first_err false pre bad post
      { st with tlog := st.tlog.reset } 0 e hok hlf hbad
    unfold Trainer.forward
    simp only [Bool.false_eq_true, if_false]
    refine ⟨he, fun ev hev i hi => ?_, ?_, ?_⟩
    · simp only [List.mem_cons] at hev
      rcases hev with h1 | h1 | h1
      · subst h1; simp [Ev.batchIdx] at hi
      · subst h1; simp [Ev.batchIdx] at hi
      · obtain ⟨j, hj, hjle⟩ := hm ev h1
        rw [hj] at hi
        have : j = i := by injection hi
        omega
    · simp only [List.mem_cons, not_or]
      exact ⟨by simp, by simp,
        runBatches_no_updateEpoch false _ { st with tlog := st.tlog.reset } 0⟩
    · simp only [List.mem_cons, not_or]
      exact ⟨by simp, by simp,
        runBatches_no_qStep false _ { st with tlog := st.tlog.reset } 0⟩
  · obtain ⟨he, hm⟩ := runBatches_first_err true pre bad post
      { st with qparams := st.qparams.map QParamS.zeroSens, tlog := st.tlog.reset }
      0 e hok hlf hbad
    unfold Trainer.forward
    simp only [if_true, he]
    refine ⟨by trivial, fun ev hev i hi => ?_, ?_, ?_⟩
    · simp only [List.mem_cons, List.mem_append] at hev
      rcases hev with h1 | h1 | h1 | h1
      · subst h1; simp [Ev.batchIdx] at hi
      · subst h1; simp [Ev.batchIdx] at hi
      · subst h1; simp [Ev.batchIdx] at hi
      · obtain ⟨j, hj, hjle⟩ := hm ev h1
        rw [hj] at hi
        have : j = i := by injection hi
        omega
    · simp only [List.mem_cons, not_or]
      exact ⟨by simp, by simp, by simp,
        runBatches_no_updateEpoch true _ _ 0⟩
    · simp only [List.mem_cons, not_or]
      exact ⟨by simp, by simp, by simp,
        runBatches_no_qStep true _ _ 0⟩

/-- Witness for C9: a training pass whose single batch's criterion raises
`computeError 7`; the pass surfaces exactly that error. -/
theorem C9_exception_propagates_witness :
    (Trainer.forward true id
        ⟨⟨1, 0, 0⟩, ⟨0, 0⟩, [], ⟨⟨0,0,0⟩, ⟨0,0,0⟩, ⟨0,0,0⟩, ⟨0,0,0⟩, ⟨0,0,0⟩⟩, 10, 0⟩
        ([] ++ ⟨1, .ok 0, [], .error (Err.computeError 7), .ok 3, 4, 5, 6⟩ :: [])).2.2 =
      some (Err.computeError 7) :=
  (C9_exception_propagates true id
    ⟨⟨1, 0, 0⟩, ⟨0, 0⟩, [], ⟨⟨0,0,0⟩, ⟨0,0,0⟩, ⟨0,0,0⟩, ⟨0,0,0⟩, ⟨0,0,0⟩⟩, 10, 0⟩
    [] ⟨1, .ok 0, [], .error (Err.computeError 7), .ok 3, 4, 5, 6⟩ []
    (Err.computeError 7) (by intro bt hbt; simp at hbt) (by decide) (by decide)).1

/-! ### Claim C4 -/

/-- Embeds `Trainer.__init__` (trainer.py lines 46-59): stores its arguments as
instance fields and sets `best_prec = 0`.  It performs no validation — in
particular none of `log_freq`.  The `Except` return type records that a
Python constructor has a failure channel; this one never uses it. -/
def Trainer.init (sched : SchedS) (opt : OptS) (qparams : List QParamS)
    (training_log : TLog) (log_freq : Int) : Except Err TrainerSt :=
  .ok ⟨sched, opt, qparams, training_log, log_freq, 0⟩

theorem firstErr_ok_zero_lf (train : Bool) (bt : Batch) (hok : bt.Ok) :
    bt.firstErr train 0 = some Err.zeroDivisionError := by
  obtain ⟨h1, h2, h3⟩ := hok
  unfold Batch.firstErr
  rcases hf : bt.forwardR with e | x <;> rcases hl : bt.lossR with e | l <;>
    cases train <;> rcases hb : bt.backwardR with e | g <;>
    simp_all [Except.isOk, Except.toBool]

/-- C4 counterexample: A configuration with `log_freq = 0` is not
rejected as a configuration error: `Trainer.__init__` accepts it, and the
run then fails later, inside the batch loop — the first batch's
`batch % self.log_freq` check raises `ZeroDivisionError`. -/
theorem C4_log_freq_zero_accepted_then_fails :
    Trainer.init ⟨1, 0, 0⟩ ⟨0, 0⟩ [] ⟨⟨0,0,0⟩, ⟨0,0,0⟩, ⟨0,0,0⟩, ⟨0,0,0⟩, ⟨0,0,0⟩⟩ 0 =
      .ok ⟨⟨1, 0, 0⟩, ⟨0, 0⟩, [], ⟨⟨0,0,0⟩, ⟨0,0,0⟩, ⟨0,0,0⟩, ⟨0,0,0⟩, ⟨0,0,0⟩⟩, 0, 0⟩ ∧
    (Trainer.train id ⟨⟨1, 0, 0⟩, ⟨0, 0⟩, [], ⟨⟨0,0,0⟩, ⟨0,0,0⟩, ⟨0,0,0⟩, ⟨0,0,0⟩, ⟨0,0,0⟩⟩, 0, 0⟩
        [⟨1, .ok 0, [], .ok 2, .ok 3, 4, 5, 6⟩]).2.2 = some Err.zeroDivisionError :=
  ⟨rfl, by decide⟩

/-- C4 (amended): `log_freq <= 0` is not rejected at construction:
`Trainer.__init__` accepts every `log_freq` value unchecked, and a trainer
configured with `log_freq = 0` fails later, inside the batch loop, with
`ZeroDivisionError` at the first batch's periodic-log check — in a
training pass and in an evaluation pass alike. -/
theorem C4_init_accepts_log_freq_unchecked (sched : SchedS) (opt : OptS)
    (qparams : List QParamS) (tlog : TLog) (lf : Int)
    (qstepF : QParamS → QParamS) (st : TrainerSt) (bt : Batch) (bts : List Batch)
    (hok : bt.Ok) (hlf : st.log_freq = 0) :
    (Trainer.init sched opt qparams tlog lf).isOk = true ∧
    (Trainer.train qstepF st (bt :: bts)).2.2 = some Err.zeroDivisionError ∧
    (Trainer.test qstepF st (bt :: bts)).2.2 = some Err.zeroDivisionError := by
  refine ⟨rfl, ?_, ?_⟩
  · have herr : (runBatch true
        { st with qparams := st.qparams.map QParamS.zeroSens, tlog := st.tlog.reset }
        0 bt).2.2 = some Err.zeroDivisionError := by
      rw [runBatch_err]
      show bt.firstErr true st.log_freq = _
      rw [hlf]
      exact firstErr_ok_zero_lf true bt hok
    unfold Trainer.train Trainer.forward runBatches
    simp only [if_true, herr]
  · have herr : (runBatch false { st with tlog := st.tlog.reset } 0 bt).2.2 =
        some Err.zeroDivisionError := by
      rw [runBatch_err]
      show bt.firstErr false st.log_freq = _
      rw [hlf]
      exact firstErr_ok_zero_lf false bt hok
    unfold Trainer.test Trainer.forward runBatches
    simp only [Bool.false_eq_true, if_false, herr]

/-- Witness for C4's amended theorem: `log_freq = 0` at a concrete state. -/
theorem C4_init_accepts_log_freq_unchecked_witness :
    (Trainer.init ⟨1, 0, 0⟩ ⟨0, 0⟩ [] ⟨⟨0,0,0⟩, ⟨0,0,0⟩, ⟨0,0,0⟩, ⟨0,0,0⟩, ⟨0,0,0⟩⟩ 0).isOk
        = true ∧
    (Trainer.train id ⟨⟨1, 0, 0⟩, ⟨0, 0⟩, [], ⟨⟨0,0,0⟩, ⟨0,0,0⟩, ⟨0,0,0⟩, ⟨0,0,0⟩, ⟨0,0,0⟩⟩, 0, 0⟩
        [⟨1, .ok 0, [], .ok 2, .ok 3, 4, 5, 6⟩]).2.2 = some Err.zeroDivisionError ∧
    (Trainer.test id ⟨⟨1, 0, 0⟩, ⟨0, 0⟩, [], ⟨⟨0,0,0⟩, ⟨0,0,0⟩, ⟨0,0,0⟩, ⟨0,0,0⟩, ⟨0,0,0⟩⟩, 0, 0⟩
        [⟨1, .ok 0, [], .ok 2, .ok 3, 4, 5, 6⟩]).2.2 = some Err.zeroDivisionError :=
  C4_init_accepts_log_freq_unchecked ⟨1, 0, 0⟩ ⟨0, 0⟩ []
    ⟨⟨0,0,0⟩, ⟨0,0,0⟩, ⟨0,0,0⟩, ⟨0,0,0⟩, ⟨0,0,0⟩⟩ 0 id
    ⟨⟨1, 0, 0⟩, ⟨0, 0⟩, [], ⟨⟨0,0,0⟩, ⟨0,0,0⟩, ⟨0,0,0⟩, ⟨0,0,0⟩, ⟨0,0,0⟩⟩, 0, 0⟩
    ⟨1, .ok 0, [], .ok 2, .ok 3, 4, 5, 6⟩ []
    ⟨rfl, rfl, rfl⟩ rfl

/-! ### Claim C8 -/

/-- JSON values, as far as the two config dictionaries need them. -/
inductive JVal
  | jnum (n : Int)
  | jstr (s : String)
  | jobj (fields : List (String × JVal))

/-- Embeds `Trainer.load_config` (trainer.py lines 129-132): opens the file and
parses it (`parsed` is `json.load`'s outcome — a document, or the error it
raises), binds the result to a local and prints a message.  Nothing is
assigned on the Trainer. -/
def Trainer.load_config (st : TrainerSt) (parsed : Except Err JVal) :
    Except Err (TrainerSt × String) :=
  match parsed with
  | .error e => .error e
  | .ok _ => .ok (st, "Successful Loading Trainer Config from ")

/-- C8: For every path argument (whatever parsing the file at that
path yields), `Trainer.load_config` parses and logs the JSON config but
mutates no Trainer state: whenever the call returns, the trainer state is
exactly the one it was given; and when parsing raises, the error merely
propagates, with the state likewise untouched. -/
theorem C8_load_config_mutates_nothing (st : TrainerSt) (parsed : Except Err JVal)
    (r : TrainerSt × String) (h : Trainer.load_config st parsed = .ok r) :
    r.1 = st := by
  unfold Trainer.load_config at h
  rcases parsed with e | d
  · exact absurd h (by simp)
  · injection h with h'
    rw [← h']

/-- Witness for C8: loading a concrete parsed document returns the given
state unchanged. -/
theorem C8_load_config_mutates_nothing_witness :
    ((⟨⟨1, 0, 0⟩, ⟨0, 0⟩, [], ⟨⟨0,0,0⟩, ⟨0,0,0⟩, ⟨0,0,0⟩, ⟨0,0,0⟩, ⟨0,0,0⟩⟩, 10, 0⟩ : TrainerSt),
      "Successful Loading Trainer Config from ").1 =
      ⟨⟨1, 0, 0⟩, ⟨0, 0⟩, [], ⟨⟨0,0,0⟩, ⟨0,0,0⟩, ⟨0,0,0⟩, ⟨0,0,0⟩, ⟨0,0,0⟩⟩, 10, 0⟩ :=
  C8_load_config_mutates_nothing
    ⟨⟨1, 0, 0⟩, ⟨0, 0⟩, [], ⟨⟨0,0,0⟩, ⟨0,0,0⟩, ⟨0,0,0⟩, ⟨0,0,0⟩, ⟨0,0,0⟩⟩, 10, 0⟩
    (.ok (JVal.jnum 1)) _ rfl

/-! ### Claim C10 -/

/-- In Python, a default argument is evaluated once, when the `def` is
processed: trainer.py line 48, `training_log:TrainingLog=TrainingLog()`,
allocates ONE `TrainingLog` object at class-definition time.  Object
identity is modelled with references (`Nat`) into a heap of `TLog` values;
this constant is the reference the single default object gets. -/
def defaultTrainingLogRef : Nat := 0

/-- Which `TrainingLog` object a freshly constructed Trainer's
`self.training_log` names (trainer.py lines 48, 57): the explicitly passed
object if any, otherwise the shared class-definition-time default. -/
def Trainer.initLogRef (explicitLog : Option Nat) : Nat :=
  explicitLog.getD defaultTrainingLogRef

/-- Heap update: mutate the object named by `r`. -/
def heapUpdate (h : Nat → TLog) (r : Nat) (v : TLog) : Nat → TLog :=
  fun q => if q = r then v else h q

/-- C10: The default value of `Trainer.__init__`'s `training_log`
parameter is a single `TrainingLog` instance evaluated once at
class-definition time; any two Trainers constructed without an explicit
`training_log` argument therefore name the same object, and a `reset()` or
meter update performed through one trainer is observed through the other
(while an explicitly passed log keeps its own identity). -/
theorem C10_shared_default_training_log (h : Nat → TLog) (v : TLog) :
    Trainer.initLogRef none = defaultTrainingLogRef ∧
    heapUpdate h (Trainer.initLogRef none) ((h (Trainer.initLogRef none)).reset)
        (Trainer.initLogRef none) = (h (Trainer.initLogRef none)).reset ∧
    heapUpdate h (Trainer.initLogRef none) v (Trainer.initLogRef none) = v ∧
    (∀ r : Nat, Trainer.initLogRef (some r) = r) := by
  refine ⟨rfl, ?_, ?_, fun r => rfl⟩ <;> simp [heapUpdate]

/-! ### The driver `main` (train.py) -/

/-- The parameter names `Trainer.__init__` accepts besides `self`
(trainer.py lines 46-48). -/
def trainerInitParams : List String :=
  ["model", "scheduler", "q_scheduler", "criterion",
   "train_loader", "test_loader", "device", "training_log", "log_freq"]

/-- The keyword arguments `main` passes to the `Trainer` constructor
(train.py lines 132-137). -/
def mainTrainerKwargs : List String :=
  ["model", "scheduler", "q_scheduler", "criterion",
   "train_loader", "test_loader", "device", "log_freq", "wandb_logger"]

/-- Python call semantics for keyword arguments: a keyword that matches no
parameter raises `TypeError`. -/
def callTrainerInit (kwargs : List String) : Except Err Unit :=
  if kwargs.all (fun k => trainerInitParams.contains k) then .ok () else .error .typeError

/-- The instance attributes `Trainer.__init__` defines on `self`
(trainer.py lines 50-59). -/
def trainerInstanceAttrs : List String :=
  ["model", "scheduler", "q_scheduler", "criterion",
   "train_loader", "test_loader", "device", "training_log", "log_freq", "best_prec"]

/-- Python attribute lookup on a Trainer instance: an attribute
`__init__` never defined raises `AttributeError`. -/
def getattrTrainer (attr : String) : Except Err String :=
  if trainerInstanceAttrs.contains attr then .ok attr else .error .attributeError

/-- The command-line configuration fields of train.py that influence which
driver statements run. -/
structure ArgsCfg where
  wandb_project : Option String
  trainer_config : Option String
  epochs : Nat
deriving DecidableEq, Repr

/-- The driver statements, in train.py's order. -/
inductive MainEv
  | globalSetup
  | saveArgs
  | wandbInit
  | dataLoad
  | modelCreate
  | trainerConstruct
  | loadConfigCall
  | registerCall
  | saveConfigCall
  | trainEpoch (e : Nat)
  | logTrainLogger (e : Nat)
  | testEpoch (e : Nat)
  | saveModelCall (e : Nat)
deriving DecidableEq, Repr

/-- One iteration of the driver's epoch loop as written (train.py lines
149-159): train, `trainer.train_logger.log(...)`, test, the same read
again (and once more for `best_prec`), save the model every fifth
epoch. -/
def epochIter (e : Nat) : List MainEv :=
  [MainEv.trainEpoch e, MainEv.logTrainLogger e, MainEv.testEpoch e,
   MainEv.logTrainLogger e, MainEv.logTrainLogger e] ++
    (if e % 5 = 0 then [MainEv.saveModelCall e] else [])

/-- Embeds `main`'s statement order (train.py lines 58-162) as written: global
setup, dumping the args, optional wandb init, data loading, model
creation, Trainer construction, optional `load_config`, `register`,
`save_config`, then the epoch loop. -/
def mainScript (cfg : ArgsCfg) : List MainEv :=
  [MainEv.globalSetup, MainEv.saveArgs] ++
    (if cfg.wandb_project.isSome then [MainEv.wandbInit] else []) ++
    [MainEv.dataLoad, MainEv.modelCreate, MainEv.trainerConstruct] ++
    (if cfg.trainer_config.isSome then [MainEv.loadConfigCall] else []) ++
    [MainEv.registerCall, MainEv.saveConfigCall] ++
    ((List.range cfg.epochs).map epochIter).join

/-- Execute driver statements with Python semantics: the Trainer
construction checks its keyword arguments, and every
`trainer.train_logger` use is an attribute lookup; the first raised error
stops the run.  Returns the executed statements and the error, if any. -/
def runMainEvents : List MainEv → List MainEv × Option Err
  | [] => ([], none)
  | MainEv.trainerConstruct :: rest =>
    match callTrainerInit mainTrainerKwargs with
    | .error e => ([MainEv.trainerConstruct], some e)
    | .ok _ =>
      let r := runMainEvents rest
      (MainEv.trainerConstruct :: r.1, r.2)
  | MainEv.logTrainLogger e :: rest =>
    match getattrTrainer ("train_logger") with
    | .error err => ([MainEv.logTrainLogger e], some err)
    | .ok _ =>
      let r := runMainEvents rest
      (MainEv.logTrainLogger e :: r.1, r.2)
  | ev :: rest =>
    let r := runMainEvents rest
    (ev :: r.1, r.2)

/-- Embeds `main(args)`: run the driver's statements. -/
def runMain (cfg : ArgsCfg) : List MainEv × Option Err :=
  runMainEvents (mainScript cfg)

/-- Every run of `main` executes exactly the statements up to the Trainer
construction and stops there with `TypeError`, whatever the
configuration. -/
theorem runMain_trace (cfg : ArgsCfg) :
    runMain cfg = ([MainEv.globalSetup, MainEv.saveArgs] ++
      (if cfg.wandb_project.isSome then [MainEv.wandbInit] else []) ++
      [MainEv.dataLoad, MainEv.modelCreate, MainEv.trainerConstruct],
      some Err.typeError) := by
  obtain ⟨wp, tc, eps⟩ := cfg
  cases wp <;> cases tc <;> rfl

/-! ### Claim C3 -/

/-- C3: For every command-line configuration, `main()` in train.py
fails before any training occurs: the Trainer is constructed with a
`wandb_logger` keyword argument that `Trainer.__init__` does not accept,
raising `TypeError` (so no train epoch, and not even `save_config`, is
ever executed); and the epoch loop reads `trainer.train_logger`, an
attribute `Trainer.__init__` never defines — the log is stored as
`training_log` — which would raise `AttributeError` if it were reached. -/
theorem C3_main_fails_before_training (cfg : ArgsCfg) :
    (runMain cfg).2 = some Err.typeError ∧
    (∀ e : Nat, MainEv.trainEpoch e ∉ (runMain cfg).1) ∧
    MainEv.registerCall ∉ (runMain cfg).1 ∧
    callTrainerInit mainTrainerKwargs = .error Err.typeError ∧
    "wandb_logger" ∈ mainTrainerKwargs ∧
    "wandb_logger" ∉ trainerInitParams ∧
    getattrTrainer ("train_logger") = .error Err.attributeError ∧
    "train_logger" ∉ trainerInstanceAttrs ∧
    "training_log" ∈ trainerInstanceAttrs := by
  rw [runMain_trace cfg]
  refine ⟨rfl, fun e => ?_, ?_, by decide, by decide, by decide,
    by decide, by decide, by decide⟩ <;>
    rcases cfg.wandb_project with - | - <;> simp

/-! ### Claim C7 -/

/-- Modelled from the spec: the LR Scheme, an immutable configuration
`{init_lr, warm_up_epoch}` (spec section 3, constructed in train.py line
116); its class source is not visible. -/
structure Scheme where
  init_lr : Int
  warm_up_epoch : Nat

/-- Modelled from the spec: the Quantization Scheme, an immutable
configuration `{target_bit_W, target_bit_bA, K_update_mode}` (spec
section 3, constructed in train.py lines 120-121). -/
structure Q_Scheme where
  target_bit_W : Int
  target_bit_bA : Int
  K_update_mode : String

/-- Embeds `scheme.__dict__`: the LR Scheme's fields as a JSON object. -/
def Scheme.toDict (s : Scheme) : List (String × JVal) :=
  [("init_lr", JVal.jnum s.init_lr),
   ("warm_up_epoch", JVal.jnum (Int.ofNat s.warm_up_epoch))]

/-- Embeds `q_scheme.__dict__`: the Quantization Scheme's fields as a JSON
object. -/
def Q_Scheme.toDict (q : Q_Scheme) : List (String × JVal) :=
  [("target_bit_W", JVal.jnum q.target_bit_W),
   ("target_bit_bA", JVal.jnum q.target_bit_bA),
   ("K_update_mode", JVal.jstr q.K_update_mode)]

/-- Embeds `Trainer.save_config` (trainer.py lines 119-127): the single JSON
document it dumps,
`{'Common': scheduler.scheme.__dict__, 'Quantization': q_scheduler.q_scheme.__dict__}`. -/
def Trainer.save_config_doc (s : Scheme) (q : Q_Scheme) : List (String × JVal) :=
  [("Common", JVal.jobj s.toDict), ("Quantization", JVal.jobj q.toDict)]

/-- C7 counterexample: "In the driver it is written exactly once per
run" fails: `main` raises `TypeError` at the Trainer construction, before
`register` and `save_config` are reached, so the executed run contains no
`save_config` call at all.  Shown at the default configuration (no wandb
project, no trainer config, one epoch). -/
theorem C7_save_config_never_executed :
    MainEv.saveConfigCall ∉ (runMain ⟨none, none, 1⟩).1 ∧
    (runMain ⟨none, none, 1⟩).2 = some Err.typeError := by
  decide

/-- C7 (amended): `save_config(save_dir)` writes a single JSON
document with exactly two top-level keys, `"Common"` holding the LR
Scheme's fields and `"Quantization"` holding the Quantization Scheme's
fields; and in the driver's statement order, `save_config` appears exactly
once, immediately after `trainer.register()` and before the first
`trainer.train()` call — but since Trainer construction raises
`TypeError`, no run actually executes it. -/
theorem C7_save_config_doc_and_placement (s : Scheme) (q : Q_Scheme) (cfg : ArgsCfg) :
    (Trainer.save_config_doc s q).map Prod.fst = ["Common", "Quantization"] ∧
    (∃ A B, mainScript cfg = A ++ [MainEv.registerCall, MainEv.saveConfigCall] ++ B ∧
      MainEv.saveConfigCall ∉ A ∧ MainEv.saveConfigCall ∉ B ∧
      (∀ e : Nat, MainEv.trainEpoch e ∉ A)) ∧
    (runMain cfg).2 = some Err.typeError ∧
    MainEv.saveConfigCall ∉ (runMain cfg).1 := by
  have htr := runMain_trace cfg
  obtain ⟨wp, tc, eps⟩ := cfg
  have hB : ∀ x ∈ ((List.range eps).map epochIter).join,
      ∃ e : Nat, x = MainEv.trainEpoch e ∨ x = MainEv.logTrainLogger e ∨
        x = MainEv.testEpoch e ∨ x = MainEv.saveModelCall e := by
    intro x hx
    obtain ⟨l, hl, hxl⟩ := List.mem_join.mp hx
    obtain ⟨e, -, hle⟩ := List.mem_map.mp hl
    refine ⟨e, ?_⟩
    rw [← hle] at hxl
    unfold epochIter at hxl
    rcases List.mem_append.mp hxl with h1 | h1
    · simp only [List.mem_cons] at h1
      rcases h1 with h | h | h | h | h | h <;> simp_all
    · split at h1 <;> simp_all
  have hBns : MainEv.saveConfigCall ∉ ((List.range eps).map epochIter).join := by
    intro h
    obtain ⟨e, he⟩ := hB _ h
    rcases he with h1 | h1 | h1 | h1 <;> exact absurd h1 (by simp)
  refine ⟨rfl, ?_, ?_, ?_⟩
  · cases wp <;> cases tc <;>
      exact ⟨_, ((List.range eps).map epochIter).join, rfl, by simp, hBns,
        fun e => by simp⟩
  · rw [htr]
  · rw [htr]
    cases wp <;> simp

end OBAQ
